import Mathlib

/-!
Shallow embedding of the scrappey MCP server (src/index.js and src/index.ts):
the remote command client, the in-memory session registry, the tool dispatcher
and the HTML annotation pipeline, with theorems checking the specification's
claims against these definitions.
-/

set_option autoImplicit false

/-- JavaScript runtime values as they appear in tool argument bags and JSON
bodies.  `undef` models the JavaScript value `undefined` (an absent key in a
destructuring read, or an object-literal field whose value is undefined). -/
inductive JsVal : Type where
  | undef : JsVal
  | null : JsVal
  | bool : Bool → JsVal
  | num : Int → JsVal
  | str : String → JsVal
  | arr : List JsVal → JsVal
  | obj : List (String × JsVal) → JsVal

mutual
/-- Structural decidable equality on JavaScript values. -/
def JsVal.decEq : (a b : JsVal) → Decidable (a = b)
  | .undef, .undef => isTrue rfl
  | .null, .null => isTrue rfl
  | .bool x, .bool y =>
      if h : x = y then isTrue (by rw [h]) else isFalse (fun hh => h (JsVal.bool.inj hh))
  | .num x, .num y =>
      if h : x = y then isTrue (by rw [h]) else isFalse (fun hh => h (JsVal.num.inj hh))
  | .str x, .str y =>
      if h : x = y then isTrue (by rw [h]) else isFalse (fun hh => h (JsVal.str.inj hh))
  | .arr x, .arr y =>
      match JsVal.decEqList x y with
      | isTrue h => isTrue (by rw [h])
      | isFalse h => isFalse (fun hh => h (JsVal.arr.inj hh))
  | .obj x, .obj y =>
      match JsVal.decEqFields x y with
      | isTrue h => isTrue (by rw [h])
      | isFalse h => isFalse (fun hh => h (JsVal.obj.inj hh))
  | .undef, .null => isFalse (fun h => nomatch h)
  | .undef, .bool _ => isFalse (fun h => nomatch h)
  | .undef, .num _ => isFalse (fun h => nomatch h)
  | .undef, .str _ => isFalse (fun h => nomatch h)
  | .undef, .arr _ => isFalse (fun h => nomatch h)
  | .undef, .obj _ => isFalse (fun h => nomatch h)
  | .null, .undef => isFalse (fun h => nomatch h)
  | .null, .bool _ => isFalse (fun h => nomatch h)
  | .null, .num _ => isFalse (fun h => nomatch h)
  | .null, .str _ => isFalse (fun h => nomatch h)
  | .null, .arr _ => isFalse (fun h => nomatch h)
  | .null, .obj _ => isFalse (fun h => nomatch h)
  | .bool _, .undef => isFalse (fun h => nomatch h)
  | .bool _, .null => isFalse (fun h => nomatch h)
  | .bool _, .num _ => isFalse (fun h => nomatch h)
  | .bool _, .str _ => isFalse (fun h => nomatch h)
  | .bool _, .arr _ => isFalse (fun h => nomatch h)
  | .bool _, .obj _ => isFalse (fun h => nomatch h)
  | .num _, .undef => isFalse (fun h => nomatch h)
  | .num _, .null => isFalse (fun h => nomatch h)
  | .num _, .bool _ => isFalse (fun h => nomatch h)
  | .num _, .str _ => isFalse (fun h => nomatch h)
  | .num _, .arr _ => isFalse (fun h => nomatch h)
  | .num _, .obj _ => isFalse (fun h => nomatch h)
  | .str _, .undef => isFalse (fun h => nomatch h)
  | .str _, .null => isFalse (fun h => nomatch h)
  | .str _, .bool _ => isFalse (fun h => nomatch h)
  | .str _, .num _ => isFalse (fun h => nomatch h)
  | .str _, .arr _ => isFalse (fun h => nomatch h)
  | .str _, .obj _ => isFalse (fun h => nomatch h)
  | .arr _, .undef => isFalse (fun h => nomatch h)
  | .arr _, .null => isFalse (fun h => nomatch h)
  | .arr _, .bool _ => isFalse (fun h => nomatch h)
  | .arr _, .num _ => isFalse (fun h => nomatch h)
  | .arr _, .str _ => isFalse (fun h => nomatch h)
  | .arr _, .obj _ => isFalse (fun h => nomatch h)
  | .obj _, .undef => isFalse (fun h => nomatch h)
  | .obj _, .null => isFalse (fun h => nomatch h)
  | .obj _, .bool _ => isFalse (fun h => nomatch h)
  | .obj _, .num _ => isFalse (fun h => nomatch h)
  | .obj _, .str _ => isFalse (fun h => nomatch h)
  | .obj _, .arr _ => isFalse (fun h => nomatch h)

/-- Decidable equality on lists of JavaScript values. -/
def JsVal.decEqList : (a b : List JsVal) → Decidable (a = b)
  | [], [] => isTrue rfl
  | [], _ :: _ => isFalse (fun h => nomatch h)
  | _ :: _, [] => isFalse (fun h => nomatch h)
  | x :: xs, y :: ys =>
      match JsVal.decEq x y with
      | isFalse h1 => isFalse (fun h => by cases h; exact h1 rfl)
      | isTrue h1 =>
          match JsVal.decEqList xs ys with
          | isTrue h2 => isTrue (by rw [h1, h2])
          | isFalse h2 => isFalse (fun h => by cases h; exact h2 rfl)

/-- Decidable equality on object field lists. -/
def JsVal.decEqFields : (a b : List (String × JsVal)) → Decidable (a = b)
  | [], [] => isTrue rfl
  | [], _ :: _ => isFalse (fun h => nomatch h)
  | _ :: _, [] => isFalse (fun h => nomatch h)
  | (k1, v1) :: xs, (k2, v2) :: ys =>
      if hk : k1 = k2 then
        match JsVal.decEq v1 v2 with
        | isFalse h1 => isFalse (fun h => by cases h; exact h1 rfl)
        | isTrue h1 =>
            match JsVal.decEqFields xs ys with
            | isTrue h2 => isTrue (by rw [hk, h1, h2])
            | isFalse h2 => isFalse (fun h => by cases h; exact h2 rfl)
      else isFalse (fun h => by cases h; exact hk rfl)
end

instance : DecidableEq JsVal := JsVal.decEq

/-- An argument bag or parameter bag: named fields with JavaScript values. -/
abbrev JsArgs := List (String × JsVal)

/-- JavaScript truthiness of a value. -/
def jsTruthy : JsVal → Bool
  | .undef => false
  | .null => false
  | .bool b => b
  | .num n => n != 0
  | .str s => !s.isEmpty
  | .arr _ => true
  | .obj _ => true

/-- Lookup of a named field in a bag; a missing key reads as `undefined`,
exactly like JavaScript destructuring or property access. -/
def jsLookup (args : JsArgs) (k : String) : JsVal :=
  (((args.find? (fun f => f.1 == k)).map Prod.snd).getD .undef)

/-- Optional-chaining property access `v?.k`: yields `undefined` on anything
that is not an object carrying the key. -/
def jsGetField : JsVal → String → JsVal
  | .obj fs, k => jsLookup fs k
  | _, _ => .undef

mutual
/-- JavaScript string coercion, as used by template literals. -/
def jsToStr : JsVal → String
  | .undef => "undefined"
  | .null => "null"
  | .bool b => if b then "true" else "false"
  | .num n => toString n
  | .str s => s
  | .arr xs => jsArrStr xs
  | .obj _ => "[object Object]"

/-- Array elements joined with commas; `null` and `undefined` render empty. -/
def jsArrStr : List JsVal → String
  | [] => ""
  | [x] => jsArrElemStr x
  | x :: y :: xs => jsArrElemStr x ++ "," ++ jsArrStr (y :: xs)

/-- One array element under string coercion. -/
def jsArrElemStr : JsVal → String
  | .undef => ""
  | .null => ""
  | .bool b => if b then "true" else "false"
  | .num n => toString n
  | .str s => s
  | .arr xs => jsArrStr xs
  | .obj _ => "[object Object]"
end

/-- Transport-level error carrying the underlying message. -/
structure JsError : Type where
  message : String
deriving DecidableEq

/-- An HTTP POST as issued through axios: endpoint URL (with the key as a
query parameter), JSON body, headers and the client-side timeout. -/
structure HttpPost : Type where
  url : String
  body : JsVal
  headers : List (String × String)
  timeoutMs : Nat
deriving DecidableEq

/-- Network oracle: the outcome axios produces for a given POST, either the
decoded JSON payload or a transport, status or decode error. -/
def Axios : Type := HttpPost → Except JsError JsVal

/-- Fixed remote endpoint (src/index.js line 22). -/
def SCRAPPEY_API_URL : String := "https://publisher.scrappey.com/api/v1"

/-- JSON.stringify of an object literal drops properties whose value is
`undefined`, so the body actually put on the wire for `axios.post(url,
\x7bcmd, ...params\x7d)` keeps only the defined fields. -/
def wireBody (cmd : JsVal) (params : JsArgs) : JsArgs :=
  (("cmd", cmd) :: params).filter (fun kv => kv.2 ≠ JsVal.undef)

/-- The single POST that `makeRequest` issues for a command. -/
def postFor (key : String) (cmd : JsVal) (params : JsArgs) : HttpPost :=
  { url := SCRAPPEY_API_URL ++ "?key=" ++ key
    body := .obj (wireBody cmd params)
    headers := [("Content-Type", "application/json"), ("Accept", "application/json")]
    timeoutMs := 180000 }

/-- makeRequest (src/index.js lines 25-42): issue one POST with a 180000 ms
timeout; return the decoded payload verbatim on success, and rethrow any
failure as a single error kind prefixed `Scrappey API error: `.  The second
component records the list of POSTs issued (always exactly one, no retry). -/
def makeRequest (axios : Axios) (key : String) (cmd : JsVal) (params : JsArgs) :
    Except JsError JsVal × List HttpPost :=
  match axios (postFor key cmd params) with
  | .ok data => (.ok data, [postFor key cmd params])
  | .error e => (.error ⟨"Scrappey API error: " ++ e.message⟩, [postFor key cmd params])

/-- JavaScript `Set.add` on the session registry: a new id is appended, an id
already present leaves the set unchanged (insertion order preserved). -/
def setAdd (s : List JsVal) (x : JsVal) : List JsVal :=
  if x ∈ s then s else s ++ [x]

/-- JavaScript `Set.delete` on the session registry (which never holds
duplicates): remove the id if present. -/
def setDelete (s : List JsVal) (x : JsVal) : List JsVal :=
  s.filter (fun y => y ≠ x)

/-- Outcome of a session helper: the returned value or propagated error, the
registry afterwards, and the POSTs issued. -/
structure SessionStep (α : Type) : Type where
  out : Except JsError α
  registry : List JsVal
  posts : List HttpPost

/-- createSession (src/index.js lines 43-48): call `sessions.create`, then
record `response.session` in the registry and return it.  A failed remote
call propagates before the registry is touched. -/
def createSession (axios : Axios) (key : String) (params : JsArgs)
    (registry : List JsVal) : SessionStep JsVal :=
  match makeRequest axios key (.str "sessions.create") params with
  | (.ok resp, posts) =>
      let sessionId := jsGetField resp "session"
      ⟨.ok sessionId, setAdd registry sessionId, posts⟩
  | (.error e, posts) => ⟨.error e, registry, posts⟩

/-- destroySession (src/index.js lines 49-52): call `sessions.destroy`, then
remove the id from the registry.  A failed remote call propagates before the
registry is touched, so the id stays recorded. -/
def destroySession (axios : Axios) (key : String) (sessionId : JsVal)
    (registry : List JsVal) : SessionStep Unit :=
  match makeRequest axios key (.str "sessions.destroy") [("session", sessionId)] with
  | (.ok _, posts) => ⟨.ok (), setDelete registry sessionId, posts⟩
  | (.error e, posts) => ⟨.error e, registry, posts⟩

/-- Parsed HTML node: an element with tag, attributes and children, a text
node, or a comment node. -/
inductive HtmlNode : Type where
  | elem : String → List (String × String) → List HtmlNode → HtmlNode
  | text : String → HtmlNode
  | comment : String → HtmlNode

mutual
/-- Structural decidable equality on HTML nodes. -/
def HtmlNode.decEq : (a b : HtmlNode) → Decidable (a = b)
  | .text x, .text y =>
      if h : x = y then isTrue (by rw [h]) else isFalse (fun hh => h (HtmlNode.text.inj hh))
  | .comment x, .comment y =>
      if h : x = y then isTrue (by rw [h]) else isFalse (fun hh => h (HtmlNode.comment.inj hh))
  | .elem t1 a1 c1, .elem t2 a2 c2 =>
      if ht : t1 = t2 then
        if ha : a1 = a2 then
          match HtmlNode.decEqList c1 c2 with
          | isTrue hc => isTrue (by rw [ht, ha, hc])
          | isFalse hc => isFalse (fun h => by cases h; exact hc rfl)
        else isFalse (fun h => by cases h; exact ha rfl)
      else isFalse (fun h => by cases h; exact ht rfl)
  | .elem _ _ _, .text _ => isFalse (fun h => nomatch h)
  | .elem _ _ _, .comment _ => isFalse (fun h => nomatch h)
  | .text _, .elem _ _ _ => isFalse (fun h => nomatch h)
  | .text _, .comment _ => isFalse (fun h => nomatch h)
  | .comment _, .elem _ _ _ => isFalse (fun h => nomatch h)
  | .comment _, .text _ => isFalse (fun h => nomatch h)

/-- Decidable equality on lists of HTML nodes. -/
def HtmlNode.decEqList : (a b : List HtmlNode) → Decidable (a = b)
  | [], [] => isTrue rfl
  | [], _ :: _ => isFalse (fun h => nomatch h)
  | _ :: _, [] => isFalse (fun h => nomatch h)
  | x :: xs, y :: ys =>
      match HtmlNode.decEq x y with
      | isFalse h1 => isFalse (fun h => by cases h; exact h1 rfl)
      | isTrue h1 =>
          match HtmlNode.decEqList xs ys with
          | isTrue h2 => isTrue (by rw [h1, h2])
          | isFalse h2 => isFalse (fun h => by cases h; exact h2 rfl)
end

instance : DecidableEq HtmlNode := HtmlNode.decEq

/-- ASCII lowercasing, as JavaScript toLowerCase performs on tag names. -/
def jsToLower (s : String) : String := String.mk (s.data.map Char.toLower)

/-- Accumulating worker for the JavaScript split on a space character. -/
def splitOnSpaceAux : List Char → List Char → List String
  | [], acc => [String.mk acc.reverse]
  | c :: cs, acc =>
      if c = ' ' then String.mk acc.reverse :: splitOnSpaceAux cs []
      else splitOnSpaceAux cs (c :: acc)

/-- JavaScript String.prototype.split(' '): split on single space
characters, keeping empty fragments. -/
def jsSplitSpace (s : String) : List String := splitOnSpaceAux s.data []

/-- JavaScript Array.prototype.join with a separator. -/
def jsJoin (sep : String) : List String → String
  | [] => ""
  | [x] => x
  | x :: y :: xs => x ++ sep ++ jsJoin sep (y :: xs)

/-- DOM attribute read: first attribute with the given name, if any. -/
def getAttr (attrs : List (String × String)) (k : String) : Option String :=
  (attrs.find? (fun a => a.1 == k)).map Prod.snd

/-- getCssSelector (src/index.js lines 283-298): `#id` when the element has a
non-empty id; else the dot-joined class tokens when the class attribute has
at least one token (split on spaces, empty tokens filtered out); else the
lowercased tag name, with a name predicate appended when a `name` attribute
is present.  `element.id` and `element.className` read as the empty string
when the attribute is absent. -/
def getCssSelector (tagName : String) (attrs : List (String × String)) : String :=
  if (getAttr attrs "id").getD "" ≠ "" then
    "#" ++ (getAttr attrs "id").getD ""
  else
    let classes := (jsSplitSpace ((getAttr attrs "class").getD "")).filter (fun c => !c.isEmpty)
    if (getAttr attrs "class").getD "" ≠ "" ∧ classes.length > 0 then
      "." ++ jsJoin "." classes
    else
      let selector := jsToLower tagName
      match getAttr attrs "name" with
      | some n => selector ++ "[name=\"" ++ n ++ "\"]"
      | none => selector

mutual
/-- DOM textContent: concatenated text of all descendant text nodes
(comment nodes contribute nothing). -/
def textContent : HtmlNode → String
  | .elem _ _ cs => textContentList cs
  | .text s => s
  | .comment _ => ""

/-- textContent of a child list, in order. -/
def textContentList : List HtmlNode → String
  | [] => ""
  | n :: ns => textContent n ++ textContentList ns
end

mutual
/-- One annotation pass of the dispatcher (src/index.js lines 154-162): for
every element matching the tag, set its textContent to the old textContent
followed by an inline selector comment.  Setting textContent replaces the
children with a single text node, so matched elements are not descended
into, exactly as the DOM mutation leaves nothing nested to annotate. -/
def annotateTextTag (tag : String) : HtmlNode → HtmlNode
  | .elem t attrs cs =>
      if jsToLower t == tag then
        .elem t attrs
          [.text (textContentList cs ++ " <!-- selector: " ++ getCssSelector t attrs ++ " -->")]
      else
        .elem t attrs (annotateTextTagList tag cs)
  | .text s => .text s
  | .comment s => .comment s

/-- The same pass over a child list. -/
def annotateTextTagList (tag : String) : List HtmlNode → List HtmlNode
  | [] => []
  | n :: ns => annotateTextTag tag n :: annotateTextTagList tag ns
end

/-- DOM setAttribute: replace the value in place if the attribute exists,
otherwise append it. -/
def setAttrDom (attrs : List (String × String)) (k v : String) : List (String × String) :=
  if (attrs.find? (fun a => a.1 == k)).isSome then
    attrs.map (fun a => if a.1 == k then (a.1, v) else a)
  else attrs ++ [(k, v)]

mutual
/-- Input annotation pass (src/index.js lines 164-167): every input element
gets the selector comment appended to its placeholder attribute (the old
placeholder reads as the empty string when absent). -/
def annotateInput : HtmlNode → HtmlNode
  | .elem t attrs cs =>
      if jsToLower t == "input" then
        .elem t
          (setAttrDom attrs "placeholder"
            (((getAttr attrs "placeholder").getD "") ++ " <!-- selector: "
              ++ getCssSelector t attrs ++ " -->"))
          (annotateInputList cs)
      else .elem t attrs (annotateInputList cs)
  | .text s => .text s
  | .comment s => .comment s

/-- The input pass over a child list. -/
def annotateInputList : List HtmlNode → List HtmlNode
  | [] => []
  | n :: ns => annotateInput n :: annotateInputList ns
end

/-- The three annotation passes in source order (src/index.js lines 154-167):
links, then buttons, then inputs. -/
def annotateAll (doc : HtmlNode) : HtmlNode :=
  annotateInput (annotateTextTag "button" (annotateTextTag "a" doc))

mutual
/-- Modelled from the spec: the markdown conversion performed by the external
node-html-markdown library (not part of src/), per section 4.4 step 5 of the
spec: the annotated document is converted to markdown, embedded data-image
content is preserved, and since keepComments is not enabled comment nodes are
dropped while text content is carried through to the output. -/
def nhmTranslate : HtmlNode → String
  | .text s => s
  | .comment _ => ""
  | .elem t attrs cs =>
      if jsToLower t == "head" || jsToLower t == "script" || jsToLower t == "style" then ""
      else if jsToLower t == "a" then
        match getAttr attrs "href" with
        | some h => "[" ++ nhmTranslateList cs ++ "](" ++ h ++ ")"
        | none => nhmTranslateList cs
      else if jsToLower t == "img" then
        "![" ++ (getAttr attrs "alt").getD "" ++ "](" ++ (getAttr attrs "src").getD "" ++ ")"
      else if jsToLower t == "br" then "\n"
      else nhmTranslateList cs

/-- Markdown conversion of a child list, in order. -/
def nhmTranslateList : List HtmlNode → String
  | [] => ""
  | n :: ns => nhmTranslate n ++ nhmTranslateList ns
end

/-- Whitespace as recognized by the HTML tokenizer. -/
def isWs (c : Char) : Bool := c == ' ' || c == '\n' || c == '\t' || c == '\r'

/-- Characters allowed in a tag or attribute name. -/
def isNameChar (c : Char) : Bool := c.isAlphanum || c == '-' || c == '_' || c == ':'

/-- HTML void elements: they never carry children or a closing tag. -/
def voidTags : List String :=
  ["area", "base", "br", "col", "embed", "hr", "img", "input", "link", "meta",
   "source", "track", "wbr"]

/-- Drop leading whitespace. -/
def dropWs : List Char → List Char
  | c :: cs => if isWs c then dropWs cs else c :: cs
  | [] => []

/-- Consume an HTML comment body up to and including the closing marker. -/
def takeComment : List Char → List Char → String × List Char
  | '-' :: '-' :: '>' :: rest, acc => (String.mk acc.reverse, rest)
  | c :: cs, acc => takeComment cs (c :: acc)
  | [], acc => (String.mk acc.reverse, [])

/-- Modelled from the spec: attribute parsing inside a tag, part of the
external jsdom DOMParser abstracted by section 4.4 step 1 of the spec as
parsing HTML into a traversable tree.  Returns the attributes, whether the
tag was self-closing, and the rest of the input after the closing angle
bracket.  The fuel argument bounds recursion and makes the parser total. -/
def parseAttrs : Nat → List Char → List (String × String) × Bool × List Char
  | 0, cs => ([], false, cs)
  | fuel + 1, cs =>
    match dropWs cs with
    | [] => ([], false, [])
    | '>' :: rest => ([], false, rest)
    | '/' :: '>' :: rest => ([], true, rest)
    | '/' :: rest => parseAttrs fuel rest
    | c :: rest =>
        let p := (c :: rest).span (fun ch => !isWs ch && ch != '=' && ch != '>' && ch != '/')
        let name := String.mk p.1
        match dropWs p.2 with
        | '=' :: cs2 =>
            match dropWs cs2 with
            | '"' :: cs3 =>
                let q := cs3.span (fun ch => ch != '"')
                let r := parseAttrs fuel (q.2.drop 1)
                ((name, String.mk q.1) :: r.1, r.2.1, r.2.2)
            | cs3 =>
                let q := cs3.span (fun ch => !isWs ch && ch != '>')
                let r := parseAttrs fuel q.2
                ((name, String.mk q.1) :: r.1, r.2.1, r.2.2)
        | cs2 =>
            let r := parseAttrs fuel cs2
            ((name, "") :: r.1, r.2.1, r.2.2)

/-- Modelled from the spec: error-tolerant parse of sibling HTML nodes, the
external jsdom DOMParser abstracted by section 4.4 step 1 of the spec.
Stops at a closing tag (handled by the caller) or at the end of input.
The fuel argument bounds recursion and makes the parser total; it never
fails, malformed input degrades to text nodes. -/
def parseNodes : Nat → List Char → List HtmlNode × List Char
  | 0, cs => ([], cs)
  | _ + 1, [] => ([], [])
  | _ + 1, '<' :: '/' :: rest => ([], '<' :: '/' :: rest)
  | fuel + 1, '<' :: '!' :: '-' :: '-' :: rest =>
      let c := takeComment rest []
      let r := parseNodes fuel c.2
      (.comment c.1 :: r.1, r.2)
  | fuel + 1, '<' :: '!' :: rest =>
      parseNodes fuel ((rest.dropWhile (fun ch => ch != '>')).drop 1)
  | fuel + 1, '<' :: c :: rest =>
      if c.isAlpha then
        let p := (c :: rest).span isNameChar
        let tag := String.mk p.1
        let a := parseAttrs fuel p.2
        if a.2.1 || voidTags.contains (jsToLower tag) then
          let r := parseNodes fuel a.2.2
          (.elem tag a.1 [] :: r.1, r.2)
        else
          let ch := parseNodes fuel a.2.2
          let after := (ch.2.dropWhile (fun x => x != '>')).drop 1
          let r := parseNodes fuel after
          (.elem tag a.1 ch.1 :: r.1, r.2)
      else
        let r := parseNodes fuel rest
        (.text "<" :: r.1, r.2)
  | fuel + 1, d :: ds =>
      let p := (d :: ds).span (fun ch => ch != '<')
      match p.1 with
      | [] =>
          let r := parseNodes fuel ds
          (.text (String.mk [d]) :: r.1, r.2)
      | tcs =>
          let r := parseNodes fuel p.2
          (.text (String.mk tcs) :: r.1, r.2)

/-- Modelled from the spec: DOMParser.parseFromString(html, 'text/html') of
the external jsdom library, abstracted by section 4.4 step 1 of the spec as
parsing the HTML string into a traversable document tree.  The resulting
document carries the html/head/body wrapper a browser-grade parser creates. -/
def parseDocument (html : String) : HtmlNode :=
  .elem "html" []
    [.elem "head" [] [],
     .elem "body" [] (parseNodes (html.length * 2 + 16) html.data).1]

/-- Response post-processing of the scrappey_request and
scrappey_browser_action branches (src/index.js lines 147-175): when the
payload carries a truthy `solution.response`, parse it, annotate links,
buttons and inputs, and convert the annotated document to markdown;
otherwise the markdown member stays the empty string.  Total by
construction: there is no error channel. -/
def requestMarkdown (response : JsVal) : String :=
  let sol := jsGetField (jsGetField response "solution") "response"
  if jsTruthy sol then nhmTranslate (annotateAll (parseDocument (jsToStr sol)))
  else ""

/-- JSON string escaping of one character, as JSON.stringify performs. -/
def quoteJsonChar (c : Char) : String :=
  if c == '"' then "\\\"" else if c == '\\' then "\\\\"
  else if c == '\n' then "\\n" else if c == '\r' then "\\r"
  else if c == '\t' then "\\t" else String.singleton c

/-- JSON string literal for a string value. -/
def quoteJson (s : String) : String :=
  "\"" ++ String.join (s.data.map quoteJsonChar) ++ "\""

/-- JSON.stringify of the result envelope with 2-space indentation, as built
by the dispatcher (src/index.js line 177). -/
def stringifyResult (md : String) : String :=
  "\x7b\n  \"markdown\": " ++ quoteJson md ++ "\n\x7d"

/-- One content block of a tool result. -/
inductive ContentBlock : Type where
  | text : String → ContentBlock
deriving DecidableEq

/-- The uniform result envelope every tool invocation returns: content
blocks plus the success/failure flag. -/
structure ToolResult : Type where
  content : List ContentBlock
  isError : Bool
deriving DecidableEq

/-- Everything observable about one dispatcher invocation: the returned
envelope, the registry afterwards, and the POSTs issued. -/
structure DispatchOut : Type where
  result : ToolResult
  registry : List JsVal
  posts : List HttpPost
deriving DecidableEq

/-- Parameter bag of the scrappey_request branch (src/index.js lines
144-145): the object literal keeps each destructured field, absent ones as
`undefined`. -/
def requestParams (args : JsArgs) : JsArgs :=
  [("url", jsLookup args "url"), ("filter", jsLookup args "filter"),
   ("session", jsLookup args "session"), ("postData", jsLookup args "postData"),
   ("customHeaders", jsLookup args "customHeaders")]

/-- Parameter bag of the scrappey_browser_action branch (src/index.js lines
182-187): only session, browserActions and filter are forwarded. -/
def browserActionParams (args : JsArgs) : JsArgs :=
  [("session", jsLookup args "session"),
   ("browserActions", jsLookup args "browserActions"),
   ("filter", jsLookup args "filter")]

/-- handleToolCall (src/index.js lines 126-235): the dispatcher with its
try/catch boundary.  Every branch yields a tagged ToolResult; a thrown
remote error is caught and converted into a failure-tagged result carrying
`Error: <message>`, so no fault escapes the function. -/
def handleToolCall (axios : Axios) (key : String) (registry : List JsVal)
    (name : String) (args : JsArgs) : DispatchOut :=
  if name = "scrappey_create_session" then
    let st := createSession axios key args registry
    match st.out with
    | .ok sid =>
        ⟨⟨[.text ("Created session: " ++ jsToStr sid)], false⟩, st.registry, st.posts⟩
    | .error e => ⟨⟨[.text ("Error: " ++ e.message)], true⟩, st.registry, st.posts⟩
  else if name = "scrappey_destroy_session" then
    let st := destroySession axios key (jsLookup args "session") registry
    match st.out with
    | .ok _ =>
        ⟨⟨[.text ("Destroyed session: " ++ jsToStr (jsLookup args "session"))], false⟩,
          st.registry, st.posts⟩
    | .error e => ⟨⟨[.text ("Error: " ++ e.message)], true⟩, st.registry, st.posts⟩
  else if name = "scrappey_request" then
    match makeRequest axios key (jsLookup args "cmd") (requestParams args) with
    | (.ok resp, posts) =>
        ⟨⟨[.text (stringifyResult (requestMarkdown resp))], false⟩, registry, posts⟩
    | (.error e, posts) => ⟨⟨[.text ("Error: " ++ e.message)], true⟩, registry, posts⟩
  else if name = "scrappey_browser_action" then
    match makeRequest axios key (.str "request.get") (browserActionParams args) with
    | (.ok resp, posts) =>
        ⟨⟨[.text (stringifyResult (requestMarkdown resp))], false⟩, registry, posts⟩
    | (.error e, posts) => ⟨⟨[.text ("Error: " ++ e.message)], true⟩, registry, posts⟩
  else
    ⟨⟨[.text ("Unknown tool: " ++ name)], true⟩, registry, []⟩

/-- scrappey_wait action construction (src/index.ts lines 305-313): a truthy
selector selects a wait_for_selector action carrying the selector and the
timeout; otherwise a fixed-delay wait action carrying seconds. -/
def tsWaitAction (args : JsArgs) : JsVal :=
  if jsTruthy (jsLookup args "selector") then
    .obj [("type", .str "wait_for_selector"), ("cssSelector", jsLookup args "selector"),
          ("timeout", jsLookup args "timeout")]
  else
    .obj [("type", .str "wait"), ("wait", jsLookup args "seconds")]

/-- Parameter bag scrappey_wait sends with the request.get command
(src/index.ts lines 315-318): the session and a singleton browserActions
array holding the constructed action. -/
def tsWaitRequestParams (args : JsArgs) : JsArgs :=
  [("session", jsLookup args "sessionId"),
   ("browserActions", .arr [tsWaitAction args])]

mutual
/-- Text content of the first element with the given tag, in document
order; used to state facts about annotated documents. -/
def firstTagText (tag : String) : HtmlNode → Option String
  | .elem t _ cs =>
      if jsToLower t == tag then some (textContentList cs)
      else firstTagTextList tag cs
  | .text _ => none
  | .comment _ => none

/-- The same search over a child list. -/
def firstTagTextList (tag : String) : List HtmlNode → Option String
  | [] => none
  | n :: ns =>
      match firstTagText tag n with
      | some s => some s
      | none => firstTagTextList tag ns
end

/-- Backend stub: `sessions.create` answers with session id `s`, every other
command succeeds with an empty object. -/
def cexAxios : Axios := fun req =>
  match req.body with
  | .obj (("cmd", .str "sessions.create") :: _) => .ok (.obj [("session", .str "s")])
  | _ => .ok (.obj [])


theorem append_left_ne_empty (p q : String) (hp : p ≠ "") : p ++ q ≠ "" := by
  intro h
  apply hp
  have hd := congrArg String.data h
  rw [String.data_append] at hd
  exact String.ext (List.append_eq_nil.mp hd).1

theorem makeRequest_of_fail (axios : Axios) (key : String) (e : JsError)
    (haxios : ∀ req, axios req = .error e) (c : JsVal) (p : JsArgs) :
    makeRequest axios key c p =
      (.error ⟨"Scrappey API error: " ++ e.message⟩, [postFor key c p]) := by
  simp [makeRequest, haxios]

/-- C9: send(verb, params) issues exactly one HTTP POST to the fixed endpoint
with the pre-shared key as a query parameter and JSON body holding cmd
followed by the params (undefined-valued fields being dropped by JSON
serialization, so the body is exactly cmd plus params whenever no field is
undefined), with a fixed 180000 ms = 180 s client-side timeout; on any
axios failure it returns the single normalized error kind
`Scrappey API error: ` carrying the underlying message and no partial
result, and on success the decoded payload verbatim.  The singleton POST
list witnesses that no retry is ever performed. -/
theorem makeRequest_single_post_normalized_error (axios : Axios) (key : String)
    (cmd : JsVal) (params : JsArgs) (e : JsError) (d : JsVal) :
    (makeRequest axios key cmd params).2 = [postFor key cmd params] ∧
    postFor key cmd params =
      ⟨SCRAPPEY_API_URL ++ "?key=" ++ key, .obj (wireBody cmd params),
        [("Content-Type", "application/json"), ("Accept", "application/json")], 180000⟩ ∧
    ((∀ kv ∈ ("cmd", cmd) :: params, kv.2 ≠ JsVal.undef) →
      wireBody cmd params = ("cmd", cmd) :: params) ∧
    (axios (postFor key cmd params) = .error e →
      (makeRequest axios key cmd params).1 =
        .error ⟨"Scrappey API error: " ++ e.message⟩) ∧
    (axios (postFor key cmd params) = .ok d →
      (makeRequest axios key cmd params).1 = .ok d) := by
  refine ⟨?_, rfl, ?_, ?_, ?_⟩
  · cases h : axios (postFor key cmd params) <;> simp [makeRequest, h]
  · intro hnone
    apply List.filter_eq_self.mpr
    intro kv hkv
    simpa using hnone kv hkv
  · intro he; simp [makeRequest, he]
  · intro hok; simp [makeRequest, hok]

theorem makeRequest_single_post_normalized_error_witness :
    (makeRequest (fun _ => .error ⟨"timeout"⟩) "k" (.str "request.get")
        [("url", .str "u")]).1 = .error ⟨"Scrappey API error: timeout"⟩ ∧
    (makeRequest (fun _ => .ok (.obj [])) "k" (.str "request.get")
        [("url", .str "u")]).1 = .ok (.obj []) ∧
    wireBody (.str "request.get") [("url", .str "u")] =
      [("cmd", .str "request.get"), ("url", .str "u")] ∧
    (makeRequest (fun _ => .error ⟨"timeout"⟩) "k" (.str "request.get")
        [("url", .str "u")]).2 =
      [postFor "k" (.str "request.get") [("url", .str "u")]] :=
  ⟨(makeRequest_single_post_normalized_error (fun _ => .error ⟨"timeout"⟩) "k"
      (.str "request.get") [("url", .str "u")] ⟨"timeout"⟩ (.obj [])).2.2.2.1 rfl,
   (makeRequest_single_post_normalized_error (fun _ => .ok (.obj [])) "k"
      (.str "request.get") [("url", .str "u")] ⟨"x"⟩ (.obj [])).2.2.2.2 rfl,
   (makeRequest_single_post_normalized_error (fun _ => .ok (.obj [])) "k"
      (.str "request.get") [("url", .str "u")] ⟨"x"⟩ (.obj [])).2.2.1 (by decide),
   (makeRequest_single_post_normalized_error (fun _ => .error ⟨"timeout"⟩) "k"
      (.str "request.get") [("url", .str "u")] ⟨"timeout"⟩ (.obj [])).1⟩

/-- C1: whatever the operation name and argument bag, the dispatcher is a
total function into tagged result envelopes (no fault escapes it by
construction), and whenever the remote call fails the returned envelope is
failure-tagged with a non-empty message text. -/
theorem dispatcher_failure_tagged_result (axios : Axios) (key : String)
    (registry : List JsVal) (name : String) (args : JsArgs) (e : JsError)
    (haxios : ∀ req, axios req = .error e) :
    (handleToolCall axios key registry name args).result.isError = true ∧
    ∃ s, (handleToolCall axios key registry name args).result.content = [.text s] ∧
      s ≠ "" := by
  have hmk := makeRequest_of_fail axios key e haxios
  unfold handleToolCall
  split_ifs
  · simp only [createSession, hmk]
    exact ⟨trivial, _, rfl, append_left_ne_empty _ _ (by decide)⟩
  · simp only [destroySession, hmk]
    exact ⟨trivial, _, rfl, append_left_ne_empty _ _ (by decide)⟩
  · simp only [hmk]
    exact ⟨trivial, _, rfl, append_left_ne_empty _ _ (by decide)⟩
  · simp only [hmk]
    exact ⟨trivial, _, rfl, append_left_ne_empty _ _ (by decide)⟩
  · exact ⟨rfl, _, rfl, append_left_ne_empty _ _ (by decide)⟩

theorem dispatcher_failure_tagged_result_witness :
    (handleToolCall (fun _ => .error ⟨"connection refused"⟩) "k" []
        "scrappey_request" [("cmd", .str "request.get")]).result.isError = true ∧
    ∃ s, (handleToolCall (fun _ => .error ⟨"connection refused"⟩) "k" []
        "scrappey_request" [("cmd", .str "request.get")]).result.content = [.text s] ∧
      s ≠ "" :=
  dispatcher_failure_tagged_result (fun _ => .error ⟨"connection refused"⟩) "k" []
    "scrappey_request" [("cmd", .str "request.get")] ⟨"connection refused"⟩
    (fun _ => rfl)

/-- C2: the session registry is untouched by failed remote calls: a failed
`sessions.create` records no id, and a failed `sessions.destroy` removes
nothing, so the id stays recorded. -/
theorem registry_unchanged_on_remote_failure (axios : Axios) (key : String)
    (registry : List JsVal) (cargs dargs : JsArgs) (e1 e2 : JsError)
    (h1 : axios (postFor key (.str "sessions.create") cargs) = .error e1)
    (h2 : axios (postFor key (.str "sessions.destroy")
        [("session", jsLookup dargs "session")]) = .error e2) :
    (handleToolCall axios key registry "scrappey_create_session" cargs).registry
      = registry ∧
    (handleToolCall axios key registry "scrappey_destroy_session" dargs).registry
      = registry := by
  constructor
  · have hm : makeRequest axios key (.str "sessions.create") cargs =
        (.error ⟨"Scrappey API error: " ++ e1.message⟩,
          [postFor key (.str "sessions.create") cargs]) := by
      simp [makeRequest, h1]
    simp [handleToolCall, createSession, hm]
  · have hm : makeRequest axios key (.str "sessions.destroy")
        [("session", jsLookup dargs "session")] =
        (.error ⟨"Scrappey API error: " ++ e2.message⟩,
          [postFor key (.str "sessions.destroy") [("session", jsLookup dargs "session")]]) := by
      simp [makeRequest, h2]
    simp [handleToolCall, destroySession, hm]

theorem registry_unchanged_on_remote_failure_witness :
    (handleToolCall (fun _ => .error ⟨"down"⟩) "k" [JsVal.str "a"]
        "scrappey_create_session" []).registry = [JsVal.str "a"] ∧
    (handleToolCall (fun _ => .error ⟨"down"⟩) "k" [JsVal.str "a"]
        "scrappey_destroy_session" [("session", JsVal.str "a")]).registry
      = [JsVal.str "a"] :=
  registry_unchanged_on_remote_failure (fun _ => .error ⟨"down"⟩) "k" [JsVal.str "a"]
    [] [("session", JsVal.str "a")] ⟨"down"⟩ ⟨"down"⟩ rfl rfl

theorem setDelete_append_fresh (S : List JsVal) (x : JsVal) (h : x ∉ S) :
    setDelete (S ++ [x]) x = S := by
  simp only [setDelete, List.filter_append]
  have h1 : S.filter (fun y => decide (y ≠ x)) = S :=
    List.filter_eq_self.mpr (fun a ha => by
      simp only [decide_eq_true_eq]
      exact fun hax => h (hax ▸ ha))
  have h2 : [x].filter (fun y => decide (y ≠ x)) = [] := by simp
  rw [h1, h2, List.append_nil]

/-- C7 counterexample: a successful create-session (the backend reissues id
`s`, which the registry already holds) followed by a successful
destroy-session of that returned id leaves the registry without `s`, so
membership after the pair differs from membership before it. -/
theorem roundtrip_fails_when_id_already_recorded :
    (handleToolCall cexAxios "k" [JsVal.str "s"]
        "scrappey_create_session" []).result.isError = false ∧
    (handleToolCall cexAxios "k" [JsVal.str "s"]
        "scrappey_create_session" []).result.content = [.text "Created session: s"] ∧
    (handleToolCall cexAxios "k"
        (handleToolCall cexAxios "k" [JsVal.str "s"] "scrappey_create_session" []).registry
        "scrappey_destroy_session" [("session", JsVal.str "s")]).result.isError = false ∧
    JsVal.str "s" ∈ [JsVal.str "s"] ∧
    JsVal.str "s" ∉ (handleToolCall cexAxios "k"
        (handleToolCall cexAxios "k" [JsVal.str "s"] "scrappey_create_session" []).registry
        "scrappey_destroy_session" [("session", JsVal.str "s")]).registry := by
  decide

/-- C7 amended: for every successful create-session followed by a successful
destroy-session of the returned session id, provided the returned id was not
already recorded in the registry, the registry membership after the pair
equals the membership before the pair. -/
theorem create_destroy_roundtrip_fresh (axios : Axios) (key : String)
    (S : List JsVal) (cargs : JsArgs) (resp d : JsVal)
    (h1 : axios (postFor key (.str "sessions.create") cargs) = .ok resp)
    (hfresh : jsGetField resp "session" ∉ S)
    (h2 : axios (postFor key (.str "sessions.destroy")
        [("session", jsGetField resp "session")]) = .ok d) :
    (handleToolCall axios key S "scrappey_create_session" cargs).result.isError
      = false ∧
    (handleToolCall axios key
        (handleToolCall axios key S "scrappey_create_session" cargs).registry
        "scrappey_destroy_session"
        [("session", jsGetField resp "session")]).result.isError = false ∧
    (handleToolCall axios key
        (handleToolCall axios key S "scrappey_create_session" cargs).registry
        "scrappey_destroy_session"
        [("session", jsGetField resp "session")]).registry = S := by
  have hc : (handleToolCall axios key S "scrappey_create_session" cargs).registry
      = S ++ [jsGetField resp "session"] := by
    simp [handleToolCall, createSession, makeRequest, h1, setAdd, hfresh]
  have hcr : (handleToolCall axios key S "scrappey_create_session" cargs).result.isError
      = false := by
    simp [handleToolCall, createSession, makeRequest, h1]
  have hl : jsLookup [("session", jsGetField resp "session")] "session"
      = jsGetField resp "session" := rfl
  refine ⟨hcr, ?_, ?_⟩
  · rw [hc]
    simp [handleToolCall, destroySession, makeRequest, hl, h2]
  · rw [hc]
    simp [handleToolCall, destroySession, makeRequest, hl, h2]
    exact setDelete_append_fresh S _ hfresh

theorem create_destroy_roundtrip_fresh_witness :
    (handleToolCall cexAxios "k" [] "scrappey_create_session" []).result.isError
      = false ∧
    (handleToolCall cexAxios "k"
        (handleToolCall cexAxios "k" [] "scrappey_create_session" []).registry
        "scrappey_destroy_session" [("session", JsVal.str "s")]).result.isError
      = false ∧
    (handleToolCall cexAxios "k"
        (handleToolCall cexAxios "k" [] "scrappey_create_session" []).registry
        "scrappey_destroy_session" [("session", JsVal.str "s")]).registry = [] :=
  create_destroy_roundtrip_fresh cexAxios "k" [] [] (.obj [("session", .str "s")])
    (.obj []) rfl (by decide) rfl

/-- C3: selector synthesis priority. With a non-empty id the selector is
`#id`; with an empty id and at least one class token it is the dot-joined
token list; with neither it is the lowercased tag name, suffixed with a
name predicate exactly when a `name` attribute is present. -/
theorem getCssSelector_priority (tag : String) (attrs : List (String × String)) :
    ((getAttr attrs "id").getD "" ≠ "" →
      getCssSelector tag attrs = "#" ++ (getAttr attrs "id").getD "") ∧
    ((getAttr attrs "id").getD "" = "" →
      ∀ c cls,
        (jsSplitSpace ((getAttr attrs "class").getD "")).filter (fun s => !s.isEmpty)
          = c :: cls →
        getCssSelector tag attrs = "." ++ jsJoin "." (c :: cls)) ∧
    ((getAttr attrs "id").getD "" = "" →
      (jsSplitSpace ((getAttr attrs "class").getD "")).filter (fun s => !s.isEmpty) = [] →
      getCssSelector tag attrs =
        jsToLower tag ++
          (match getAttr attrs "name" with
           | some n => "[name=\"" ++ n ++ "\"]"
           | none => "")) := by
  refine ⟨?_, ?_, ?_⟩
  · intro hid
    simp [getCssSelector, hid]
  · intro hid c cls hcls
    have hcl : (getAttr attrs "class").getD "" ≠ "" := by
      intro h0
      have hnil : (jsSplitSpace "").filter (fun s => !s.isEmpty) = [] := by decide
      rw [h0, hnil] at hcls
      simp at hcls
    have hlen : (0:Nat) <
        ((jsSplitSpace ((getAttr attrs "class").getD "")).filter (fun s => !s.isEmpty)).length := by
      rw [hcls]; simp
    simp [getCssSelector, hid, hcl, hlen, hcls]
  · intro hid hcls
    cases hname : getAttr attrs "name" <;>
      simp [getCssSelector, hid, hcls, hname, String.append_assoc]

theorem getCssSelector_priority_witness :
    getCssSelector "a" [("id", "x"), ("class", "y")] = "#x" ∧
    getCssSelector "a" [("class", "y z")] = ".y.z" ∧
    getCssSelector "input" [("name", "q")] = "input[name=\"q\"]" := by
  refine ⟨(getCssSelector_priority "a" [("id", "x"), ("class", "y")]).1 (by decide), ?_, ?_⟩
  · have h := (getCssSelector_priority "a" [("class", "y z")]).2.1 (by decide)
      "y" ["z"] (by decide)
    exact h.trans (by decide)
  · have h := (getCssSelector_priority "input" [("name", "q")]).2.2 (by decide) (by decide)
    exact h.trans (by decide)

/-- C5: the response annotator produces its markdown only from a truthy
`solution.response` field; any payload on which that path is absent, falsy
or malformed yields the empty markdown string.  `requestMarkdown` is a total
function, so no fault can ever escape the annotator. -/
theorem requestMarkdown_empty_without_solution (response : JsVal)
    (h : jsTruthy (jsGetField (jsGetField response "solution") "response") = false) :
    requestMarkdown response = "" := by
  simp [requestMarkdown, h]

theorem requestMarkdown_empty_without_solution_witness :
    requestMarkdown (.obj [("solution", .str "nope")]) = "" ∧
    requestMarkdown (.obj [("solution", .obj [("response", .str "")])]) = "" ∧
    requestMarkdown .null = "" :=
  ⟨requestMarkdown_empty_without_solution (.obj [("solution", .str "nope")]) (by decide),
   requestMarkdown_empty_without_solution (.obj [("solution", .obj [("response", .str "")])])
     (by decide),
   requestMarkdown_empty_without_solution .null (by decide)⟩

/-- C4: the parameter bag that the generic-request branch hands to the
remote command client contains `url` and `session` whenever the caller
supplied them, while `postData` and `customHeaders` are absent from the
serialized bag whenever the caller did not supply them: the object literal
holds an `undefined` placeholder, which JSON serialization omits entirely,
so no key with a null-like placeholder reaches the wire. -/
theorem request_param_bag_omits_absent_optionals (args : JsArgs) (c u s : JsVal) :
    (jsLookup args "url" = u → u ≠ .undef →
      ("url", u) ∈ wireBody c (requestParams args)) ∧
    (jsLookup args "session" = s → s ≠ .undef →
      ("session", s) ∈ wireBody c (requestParams args)) ∧
    (jsLookup args "postData" = .undef →
      "postData" ∉ (wireBody c (requestParams args)).map Prod.fst) ∧
    (jsLookup args "customHeaders" = .undef →
      "customHeaders" ∉ (wireBody c (requestParams args)).map Prod.fst) := by
  refine ⟨?_, ?_, ?_, ?_⟩
  · intro hu hne
    rw [wireBody]
    apply List.mem_filter.mpr
    exact ⟨by simp [requestParams, hu], by simpa using hne⟩
  · intro hs hne
    rw [wireBody]
    apply List.mem_filter.mpr
    exact ⟨by simp [requestParams, hs], by simpa using hne⟩
  · intro hpd hmem
    rcases List.mem_map.mp hmem with ⟨kv, hkv, hfst⟩
    rcases List.mem_filter.mp hkv with ⟨hin, hp⟩
    simp only [wireBody, requestParams, List.mem_cons, List.not_mem_nil, or_false] at hin
    rcases hin with h | h | h | h | h | h <;> subst h <;> simp_all
  · intro hch hmem
    rcases List.mem_map.mp hmem with ⟨kv, hkv, hfst⟩
    rcases List.mem_filter.mp hkv with ⟨hin, hp⟩
    simp only [wireBody, requestParams, List.mem_cons, List.not_mem_nil, or_false] at hin
    rcases hin with h | h | h | h | h | h <;> subst h <;> simp_all

theorem request_param_bag_omits_absent_optionals_witness :
    ("url", JsVal.str "https://x.example") ∈
      wireBody (.str "request.get")
        (requestParams [("url", .str "https://x.example"), ("session", .str "s1"),
          ("cmd", .str "request.get")]) ∧
    ("session", JsVal.str "s1") ∈
      wireBody (.str "request.get")
        (requestParams [("url", .str "https://x.example"), ("session", .str "s1"),
          ("cmd", .str "request.get")]) ∧
    "postData" ∉
      (wireBody (.str "request.get")
        (requestParams [("url", .str "https://x.example"), ("session", .str "s1"),
          ("cmd", .str "request.get")])).map Prod.fst ∧
    "customHeaders" ∉
      (wireBody (.str "request.get")
        (requestParams [("url", .str "https://x.example"), ("session", .str "s1"),
          ("cmd", .str "request.get")])).map Prod.fst :=
  ⟨(request_param_bag_omits_absent_optionals _ _ _ (.str "s1")).1 rfl (by decide),
   (request_param_bag_omits_absent_optionals _ _ (.str "https://x.example") _).2.1 rfl
     (by decide),
   (request_param_bag_omits_absent_optionals _ (.str "request.get") (.str "u") (.str "s1")).2.2.1
     rfl,
   (request_param_bag_omits_absent_optionals _ (.str "request.get") (.str "u") (.str "s1")).2.2.2
     rfl⟩

/-- C6: the wait operation builds a wait_for_selector action carrying the
supplied selector and timeout whenever a (truthy) selector is supplied and
no seconds are, and a fixed-delay wait action carrying seconds whenever only
seconds are supplied; the request parameter bag carries that single action
as a one-element browserActions array. -/
theorem wait_action_selection (args : JsArgs) (sel : String) :
    (jsLookup args "selector" = .str sel → sel ≠ "" → jsLookup args "seconds" = .undef →
      tsWaitAction args =
        .obj [("type", .str "wait_for_selector"), ("cssSelector", .str sel),
              ("timeout", jsLookup args "timeout")]) ∧
    (jsLookup args "selector" = .undef →
      tsWaitAction args = .obj [("type", .str "wait"), ("wait", jsLookup args "seconds")]) ∧
    ("browserActions", JsVal.arr [tsWaitAction args]) ∈ tsWaitRequestParams args := by
  refine ⟨?_, ?_, ?_⟩
  · intro hsel hne _
    have ht : jsTruthy (JsVal.str sel) = true := by
      simp only [jsTruthy, Bool.not_eq_true']
      rw [Bool.eq_false_iff]
      intro he
      exact hne ((String.isEmpty_iff sel).mp he)
    simp [tsWaitAction, hsel, ht]
  · intro hsel
    simp [tsWaitAction, hsel, jsTruthy]
  · simp [tsWaitRequestParams]

theorem wait_action_selection_witness :
    tsWaitAction [("sessionId", .str "s"), ("selector", .str "#a"), ("timeout", .num 5)] =
      .obj [("type", .str "wait_for_selector"), ("cssSelector", .str "#a"),
            ("timeout", .num 5)] ∧
    tsWaitAction [("sessionId", .str "s"), ("seconds", .num 3)] =
      .obj [("type", .str "wait"), ("wait", .num 3)] := by
  constructor
  · exact ((wait_action_selection
      [("sessionId", .str "s"), ("selector", .str "#a"), ("timeout", .num 5)] "#a").1
      rfl (by decide) rfl).trans (by decide)
  · exact ((wait_action_selection [("sessionId", .str "s"), ("seconds", .num 3)] "x").2.1
      rfl).trans (by decide)

/-- C8: annotating a document holding one button with text `Go` and neither
id nor class rewrites the button text to `Go <!-- selector: button -->`, and
the markdown conversion of the annotated document carries that selector
comment through verbatim. -/
theorem button_annotation_preserved :
    firstTagText "button" (annotateAll (parseDocument "<button>Go</button>")) =
      some "Go <!-- selector: button -->" ∧
    nhmTranslate (annotateAll (parseDocument "<button>Go</button>")) =
      "Go <!-- selector: button -->" ∧
    ∃ pre suf,
      nhmTranslate (annotateAll (parseDocument "<button>Go</button>")) =
        pre ++ "<!-- selector: button -->" ++ suf :=
  ⟨by decide, by decide, "Go ", "", by decide⟩

/-- C10: the browser-action-sequence branch always sends the constant
command verb request.get, and its parameter bag holds exactly the session,
browserActions and filter arguments: the caller-supplied cmd, url and
keepSamePage never reach the bag. -/
theorem browser_action_forwards_fixed_verb (axios : Axios) (key : String)
    (registry : List JsVal) (args : JsArgs) :
    (handleToolCall axios key registry "scrappey_browser_action" args).posts =
      [postFor key (.str "request.get") (browserActionParams args)] ∧
    (browserActionParams args).map Prod.fst = ["session", "browserActions", "filter"] ∧
    ("session", jsLookup args "session") ∈ browserActionParams args ∧
    ("browserActions", jsLookup args "browserActions") ∈ browserActionParams args ∧
    "cmd" ∉ (browserActionParams args).map Prod.fst ∧
    "url" ∉ (browserActionParams args).map Prod.fst ∧
    "keepSamePage" ∉ (browserActionParams args).map Prod.fst := by
  have hk : (browserActionParams args).map Prod.fst
      = ["session", "browserActions", "filter"] := rfl
  refine ⟨?_, hk, by simp [browserActionParams], by simp [browserActionParams], ?_, ?_, ?_⟩
  · unfold handleToolCall
    rw [if_neg (by decide), if_neg (by decide), if_neg (by decide), if_pos rfl]
    cases hax : axios (postFor key (.str "request.get") (browserActionParams args)) <;>
      simp [makeRequest, hax]
  all_goals rw [hk]; decide
